import Mathlib

/-!
# RingLink protocol packet codec — shallow embedding and verification

This file embeds the RingLink wire-packet codec (crate `ringlink-protocol`:
`src/lib.rs`, `src/body.rs`, `src/body/data.rs`, `src/body/key_exchange.rs`,
`src/body/p2p.rs`) into Lean and proves properties of the encode/decode
functions.

Byte buffers are modelled as `List Nat` (each element one `u8`); machine
integers are `Nat` with explicit `% 2 ^ w` truncation at the points where the
Rust code converts (`as u32`, `as u64`, `as u8`).  The `bytes::Buf` reading
primitives (`get_u8`, `get_u32`, `get_u64`, `copy_to_slice` / `copy_to_bytes`)
panic in Rust when the buffer holds fewer bytes than requested; this is
modelled by a dedicated `DErr.panic` outcome, distinct from the crate's typed
`Error` values, so that panic-freedom is a provable statement rather than one
true by construction.
-/

namespace RingLinkProtocol

/-! ## Byte-level primitives (big-endian, as in `bytes::BufMut`/`bytes::Buf`) -/

/-- Value of a byte list read as a big-endian unsigned integer. -/
def beVal (bs : List Nat) : Nat := bs.foldl (fun a b => a * 256 + b) 0

/-- `put_u64`: big-endian bytes of the low 64 bits of `v` (each byte is taken
modulo 256, so the list is exactly the u64 truncation of `v`). -/
def u64Bytes (v : Nat) : List Nat :=
  [v / 2 ^ 56 % 256, v / 2 ^ 48 % 256, v / 2 ^ 40 % 256, v / 2 ^ 32 % 256,
   v / 2 ^ 24 % 256, v / 2 ^ 16 % 256, v / 2 ^ 8 % 256, v % 256]

/-- `put_u32`: big-endian bytes of the low 32 bits of `v`. -/
def u32Bytes (v : Nat) : List Nat :=
  [v / 2 ^ 24 % 256, v / 2 ^ 16 % 256, v / 2 ^ 8 % 256, v % 256]

/-- Decode outcome.  `insufficientData` and `unknownKind` model the two
variants of the crate's `Error` type (modelled from the spec: the `error`
module itself is not among the provided sources, and the spec names exactly
these two variants).  `panic` models a Rust panic caused by an unguarded
`bytes::Buf` read past the end of the buffer; it is not a value the Rust
decoders can return, and the totality theorem shows it never escapes. -/
inductive DErr where
  | insufficientData
  | unknownKind
  | panic
deriving DecidableEq, Repr

deriving instance DecidableEq for Except

/-- Sequential composition of fallible decode steps (the Rust `?` operator). -/
def andThen (x : Except DErr α) (f : α → Except DErr β) : Except DErr β :=
  match x with
  | .ok a => f a
  | .error e => .error e

/-- `Buf::get_u8`: reads one byte; panics when the buffer is empty. -/
def getU8 (buf : List Nat) : Except DErr (Nat × List Nat) :=
  if 1 ≤ buf.length then .ok (beVal (buf.take 1), buf.drop 1) else .error .panic

/-- `Buf::get_u32`: reads four bytes big-endian; panics when fewer remain. -/
def getU32 (buf : List Nat) : Except DErr (Nat × List Nat) :=
  if 4 ≤ buf.length then .ok (beVal (buf.take 4), buf.drop 4) else .error .panic

/-- `Buf::get_u64`: reads eight bytes big-endian; panics when fewer remain. -/
def getU64 (buf : List Nat) : Except DErr (Nat × List Nat) :=
  if 8 ≤ buf.length then .ok (beVal (buf.take 8), buf.drop 8) else .error .panic

/-- `Buf::copy_to_bytes n` / `copy_to_slice` into an `n`-byte target: reads
`n` raw bytes; panics when fewer remain. -/
def copyToBytes (n : Nat) (buf : List Nat) : Except DErr (List Nat × List Nat) :=
  if n ≤ buf.length then .ok (buf.take n, buf.drop n) else .error .panic

/-! ## External identity collaborator -/

/-- Modelled from the spec: `DeviceID` comes from the external
`ringlink_identity` crate, which is not part of this repository's sources.
The spec describes it as a fixed-length opaque byte identifier with a known
length constant, and its worked example uses 16-byte identifiers. -/
structure DeviceID where
  bytes : List Nat
deriving DecidableEq, Repr

/-- Modelled from the spec: `DeviceID::LENGTH`, the fixed identifier length
(16 per the spec's example). -/
def DeviceID.LENGTH : Nat := 16

/-- Modelled from the spec: `DeviceID::from_bytes`, raw-bytes conversion. -/
def DeviceID.from_bytes (bs : List Nat) : DeviceID := ⟨bs⟩

/-! ## Packet kinds (`src/lib.rs`) -/

/-- `PacketKind` (`src/lib.rs`). -/
inductive PacketKind where
  | Data
  | KeyExchange
  | P2P
deriving DecidableEq, Repr

/-- The `#[repr(u8)]` discriminant of each kind (`Data = 0x01`,
`KeyExchange = 0x10`, `P2P = 0x06`); this is the `as u8` cast used on
encode. -/
def PacketKind.toByte : PacketKind → Nat
  | .Data => 0x01
  | .KeyExchange => 0x10
  | .P2P => 0x06

/-- `impl TryFrom<u8> for PacketKind` (`src/lib.rs` lines 54-65). -/
def PacketKind.tryFrom (value : Nat) : Except DErr PacketKind :=
  if value = 0x01 then .ok PacketKind.Data
  else if value = 0x10 then .ok PacketKind.KeyExchange
  else if value = 0x06 then .ok PacketKind.P2P
  else .error .unknownKind

/-! ## Body variants (`src/body/…`) -/

/-- `Data` body (`src/body/data.rs`): one opaque payload. -/
structure Data where
  data : List Nat
deriving DecidableEq, Repr

/-- `Data::encode`: `put_u64(data.len() as u64)` then the raw payload. -/
def Data.encode (self : Data) : List Nat :=
  u64Bytes self.data.length ++ self.data

/-- `Data::decode` (`src/body/data.rs` lines 32-45): each read is guarded by a
`remaining >= n` check that fails with `InsufficientData`. -/
def Data.decode (buf : List Nat) : Except DErr (Data × List Nat) :=
  andThen (if 8 ≤ buf.length then getU64 buf else .error .insufficientData)
    fun (len, buf) =>
  andThen (if len ≤ buf.length then copyToBytes len buf else .error .insufficientData)
    fun (data, buf) =>
  .ok (⟨data⟩, buf)

/-- `Data::len` (`src/body/data.rs` lines 48-52): returns `self.data.len()`
(without the 8-byte length prefix). -/
def Data.len (self : Data) : Nat := self.data.length

/-- `KEY_EXCHANGE_REQUEST` (`src/body/key_exchange.rs`). -/
def KEY_EXCHANGE_REQUEST : Nat := 0x01

/-- `KEY_EXCHANGE_REPLY` (`src/body/key_exchange.rs`). -/
def KEY_EXCHANGE_REPLY : Nat := 0x02

/-- `KeyExchange` body (`src/body/key_exchange.rs`): a `typ` byte plus two
length-prefixed byte sequences. -/
structure KeyExchange where
  typ : Nat
  public_key : List Nat
  signature : List Nat
deriving DecidableEq, Repr

/-- `KeyExchange::encode`: `put_u8(typ)`, then each field with a u32
big-endian length prefix (`len() as u32` truncates to 32 bits). -/
def KeyExchange.encode (self : KeyExchange) : List Nat :=
  [self.typ % 256]
    ++ u32Bytes self.public_key.length ++ self.public_key
    ++ u32Bytes self.signature.length ++ self.signature

/-- `KeyExchange::decode` (`src/body/key_exchange.rs` lines 26-54). -/
def KeyExchange.decode (buf : List Nat) : Except DErr (KeyExchange × List Nat) :=
  andThen (if 1 ≤ buf.length then getU8 buf else .error .insufficientData)
    fun (typ, buf) =>
  andThen (if 4 ≤ buf.length then getU32 buf else .error .insufficientData)
    fun (public_key_len, buf) =>
  andThen (if public_key_len ≤ buf.length then copyToBytes public_key_len buf
           else .error .insufficientData)
    fun (public_key, buf) =>
  andThen (if 4 ≤ buf.length then getU32 buf else .error .insufficientData)
    fun (signature_len, buf) =>
  andThen (if signature_len ≤ buf.length then copyToBytes signature_len buf
           else .error .insufficientData)
    fun (signature, buf) =>
  .ok (⟨typ, public_key, signature⟩, buf)

/-- `KeyExchange::len` (`src/body/key_exchange.rs` lines 56-60):
`public_key.len() + signature.len() + 2 * size_of::<u32>() + size_of::<u8>()`. -/
def KeyExchange.len (self : KeyExchange) : Nat :=
  self.public_key.length + self.signature.length + 2 * 4 + 1

/-- `Binding` body (`src/body/p2p.rs`): embedded sender identifier plus two
length-prefixed byte sequences.  (`from` is a Lean keyword, hence `from_`.) -/
structure Binding where
  from_ : DeviceID
  body : List Nat
  signature : List Nat
deriving DecidableEq, Repr

/-- `Binding::encode`: raw identifier bytes, then each field with a u32
big-endian length prefix. -/
def Binding.encode (self : Binding) : List Nat :=
  self.from_.bytes
    ++ u32Bytes self.body.length ++ self.body
    ++ u32Bytes self.signature.length ++ self.signature

/-- `Binding::decode` (`src/body/p2p.rs` lines 42-73). -/
def Binding.decode (buf : List Nat) : Except DErr (Binding × List Nat) :=
  andThen (if DeviceID.LENGTH ≤ buf.length then copyToBytes DeviceID.LENGTH buf
           else .error .insufficientData)
    fun (fromBytes, buf) =>
  andThen (if 4 ≤ buf.length then getU32 buf else .error .insufficientData)
    fun (body_len, buf) =>
  andThen (if body_len ≤ buf.length then copyToBytes body_len buf
           else .error .insufficientData)
    fun (body, buf) =>
  andThen (if 4 ≤ buf.length then getU32 buf else .error .insufficientData)
    fun (signature_len, buf) =>
  andThen (if signature_len ≤ buf.length then copyToBytes signature_len buf
           else .error .insufficientData)
    fun (signature, buf) =>
  .ok (⟨DeviceID.from_bytes fromBytes, body, signature⟩, buf)

/-! ## Flags, header, packet (`src/lib.rs`) -/

/-- `PacketFlags` mask of defined bits: `const _ = !0;` declares every one of
the 32 bits as (reserved but) defined. -/
def PacketFlags.ALL_BITS : Nat := 0xFFFFFFFF

/-- `bitflags`' `from_bits_truncate`: keep only the defined bits. -/
def PacketFlags.from_bits_truncate (v : Nat) : Nat := v &&& PacketFlags.ALL_BITS

/-- `PacketFlags::empty()`. -/
def PacketFlags.empty : Nat := 0

/-- `PacketFlags::bits()`: the underlying u32 bit pattern. -/
def PacketFlags.bits (v : Nat) : Nat := v

/-- `PacketBody` (`src/lib.rs` lines 69-73). -/
inductive PacketBody where
  | Data : Data → PacketBody
  | KeyExchange : KeyExchange → PacketBody
  | P2P : Binding → PacketBody
deriving DecidableEq, Repr

/-- The kind derived from a body variant — the `match &body` in
`Packet::with_id` (`src/lib.rs` lines 115-119). -/
def PacketBody.kindOf : PacketBody → PacketKind
  | .Data _ => PacketKind.Data
  | .KeyExchange _ => PacketKind.KeyExchange
  | .P2P _ => PacketKind.P2P

/-- `PacketBody::len` (`src/lib.rs` lines 214-222): note the `P2P` arm
returns `0`. -/
def PacketBody.len : PacketBody → Nat
  | .Data data => data.len
  | .KeyExchange kex => kex.len
  | .P2P _ => 0

/-- Serialized bytes of a body — the `match self.body` dispatch inside
`Packet::encode` (`src/lib.rs` lines 155-159). -/
def PacketBody.encode : PacketBody → List Nat
  | .Data body => body.encode
  | .KeyExchange body => body.encode
  | .P2P body => body.encode

/-- `PacketHeader` (`src/lib.rs` lines 83-94).  `flags` is the u32 bit
pattern of the `PacketFlags` value. -/
structure PacketHeader where
  packet_id : Nat
  kind : PacketKind
  from_ : DeviceID
  to_ : DeviceID
  flags : Nat
deriving DecidableEq, Repr

/-- `PacketHeader::len` (`src/lib.rs` lines 204-206):
`size_of::<u64>() + size_of::<u8>() + 2 * DeviceID::LENGTH + size_of::<u32>()`. -/
def PacketHeader.len : Nat := 8 + 1 + 2 * DeviceID.LENGTH + 4

/-- `PacketHeader::ttl` (`src/lib.rs` lines 209-211):
`((packet_id >> 61) & 0b111) as u8`. -/
def PacketHeader.ttl (self : PacketHeader) : Nat :=
  (self.packet_id >>> 61) &&& 0b111

/-- `DEFAULT_TTL` (`src/lib.rs` line 39). -/
def DEFAULT_TTL : Nat := 0b111

/-- `Packet` (`src/lib.rs` lines 97-101). -/
structure Packet where
  header : PacketHeader
  body : PacketBody
deriving DecidableEq, Repr

/-- `Packet::with_id` (`src/lib.rs` lines 114-131): stores
`packet_id = id | (DEFAULT_TTL << 61)`, kind derived from the body,
`flags = PacketFlags::empty()`. -/
def Packet.with_id (id : Nat) (from_ to_ : DeviceID) (body : PacketBody) : Packet :=
  { header :=
      { packet_id := id ||| (DEFAULT_TTL <<< 61)
        kind := body.kindOf
        from_ := from_
        to_ := to_
        flags := PacketFlags.empty }
    body := body }

/-- `Packet::new` (`src/lib.rs` lines 107-111): draws `id` from the
process-wide atomic u64 counter `PACKET_ID` (`fetch_add(1)` returns the
previous value) and delegates to `with_id`.  The counter is modelled as an
explicit state: the function takes the current counter value and returns the
packet together with the updated counter. -/
def Packet.new (packetIdCounter : Nat) (from_ to_ : DeviceID) (body : PacketBody) :
    Packet × Nat :=
  (Packet.with_id (packetIdCounter % 2 ^ 64) from_ to_ body,
   (packetIdCounter + 1) % 2 ^ 64)

/-- `Packet::len` (`src/lib.rs` lines 134-136). -/
def Packet.len (self : Packet) : Nat := PacketHeader.len + self.body.len

/-- `Packet::encode` (`src/lib.rs` lines 148-160): packet_id, kind byte,
from, to, flags, then the body. -/
def Packet.encode (self : Packet) : List Nat :=
  u64Bytes self.header.packet_id
    ++ [self.header.kind.toByte]
    ++ self.header.from_.bytes
    ++ self.header.to_.bytes
    ++ u32Bytes (PacketFlags.bits self.header.flags)
    ++ self.body.encode

/-- `Packet::encode_into_bytes` (`src/lib.rs` lines 139-144): allocates a
buffer of capacity `self.len()` and encodes into it; `BytesMut` grows as
needed, so the resulting bytes are exactly `encode`'s output. -/
def Packet.encode_into_bytes (self : Packet) : List Nat := self.encode

/-- `Packet::decode` (`src/lib.rs` lines 162-199). -/
def Packet.decode (buf : List Nat) : Except DErr Packet :=
  if buf.length < PacketHeader.len then .error .insufficientData else
  andThen (getU64 buf) fun (id, buf) =>
  andThen (getU8 buf) fun (kindByte, buf) =>
  andThen (PacketKind.tryFrom kindByte) fun kind =>
  andThen (copyToBytes DeviceID.LENGTH buf) fun (fromBytes, buf) =>
  andThen (copyToBytes DeviceID.LENGTH buf) fun (toBytes, buf) =>
  andThen (getU32 buf) fun (flagsBits, buf) =>
  andThen (match kind with
    | PacketKind.Data =>
        andThen (Data.decode buf) fun (body, _) => .ok (PacketBody.Data body)
    | PacketKind.KeyExchange =>
        andThen (KeyExchange.decode buf) fun (body, _) => .ok (PacketBody.KeyExchange body)
    | PacketKind.P2P =>
        andThen (Binding.decode buf) fun (body, _) => .ok (PacketBody.P2P body))
    fun body =>
  .ok { header :=
          { packet_id := id
            kind := kind
            from_ := DeviceID.from_bytes fromBytes
            to_ := DeviceID.from_bytes toBytes
            flags := PacketFlags.from_bits_truncate flagsBits }
        body := body }

/-- Machine-representability of a packet: every field fits the machine-integer
type it has in Rust (`packet_id : u64`, `flags : u32`, `typ : u8`, each
length-prefixed field's length fits its prefix width, identifiers are 16
bytes), and the header's kind matches the body variant (as every
constructor-built packet satisfies). -/
def Packet.WF (p : Packet) : Prop :=
  p.header.kind = p.body.kindOf
  ∧ p.header.packet_id < 2 ^ 64
  ∧ p.header.flags < 2 ^ 32
  ∧ p.header.from_.bytes.length = DeviceID.LENGTH
  ∧ p.header.to_.bytes.length = DeviceID.LENGTH
  ∧ (match p.body with
     | .Data d => d.data.length < 2 ^ 64
     | .KeyExchange k =>
         k.typ < 2 ^ 8 ∧ k.public_key.length < 2 ^ 32 ∧ k.signature.length < 2 ^ 32
     | .P2P b =>
         b.from_.bytes.length = DeviceID.LENGTH
           ∧ b.body.length < 2 ^ 32 ∧ b.signature.length < 2 ^ 32)

/-! ## Shared concrete values -/

/-- A zero-valued 16-byte device identifier. -/
def devZero : DeviceID := ⟨List.replicate 16 0⟩

/-- The spec's example packet: a `Data` body holding the four bytes of
`"ping"`, zero-valued identifiers. -/
def pingPacket : Packet :=
  Packet.with_id 0 devZero devZero (PacketBody.Data ⟨[112, 105, 110, 103]⟩)

/-! ## Helper lemmas -/

theorem andThen_ok (a : α) (f : α → Except DErr β) : andThen (.ok a) f = f a := rfl

theorem andThen_error (e : DErr) (f : α → Except DErr β) :
    andThen (.error e) f = .error e := rfl

theorem u64Bytes_length (v : Nat) : (u64Bytes v).length = 8 := rfl

theorem u32Bytes_length (v : Nat) : (u32Bytes v).length = 4 := rfl

theorem beVal_u64Bytes (v : Nat) (h : v < 2 ^ 64) : beVal (u64Bytes v) = v := by
  simp only [beVal, u64Bytes, List.foldl_cons, List.foldl_nil]
  omega

theorem beVal_u32Bytes (v : Nat) (h : v < 2 ^ 32) : beVal (u32Bytes v) = v := by
  simp only [beVal, u32Bytes, List.foldl_cons, List.foldl_nil]
  omega

theorem getU8_cons (b : Nat) (rest : List Nat) : getU8 (b :: rest) = .ok (b, rest) := by
  simp [getU8, beVal]

theorem getU32_append (pre rest : List Nat) (h : pre.length = 4) :
    getU32 (pre ++ rest) = .ok (beVal pre, rest) := by
  unfold getU32
  rw [if_pos (by simp [h]), List.take_left' h, List.drop_left' h]

theorem getU64_append (pre rest : List Nat) (h : pre.length = 8) :
    getU64 (pre ++ rest) = .ok (beVal pre, rest) := by
  unfold getU64
  rw [if_pos (by simp [h]), List.take_left' h, List.drop_left' h]

theorem copyToBytes_append (n : Nat) (pre rest : List Nat) (h : pre.length = n) :
    copyToBytes n (pre ++ rest) = .ok (pre, rest) := by
  unfold copyToBytes
  rw [if_pos (by simp [h]), List.take_left' h, List.drop_left' h]

theorem take_append_ge (l1 l2 : List Nat) (k : Nat) (h : l1.length ≤ k) :
    (l1 ++ l2).take k = l1 ++ l2.take (k - l1.length) := by
  rw [List.take_append_eq_append_take, List.take_of_length_le h]

theorem length_take_eq (l : List Nat) (k : Nat) (h : k ≤ l.length) :
    (l.take k).length = k := by
  simp [List.length_take]
  omega

theorem or_high_ttl (id : Nat) : ((id ||| (7 <<< 61)) >>> 61) &&& 7 = 7 := by
  apply Nat.eq_of_testBit_eq
  intro i
  simp only [Nat.testBit_and, Nat.testBit_shiftRight, Nat.testBit_or, Nat.testBit_shiftLeft]
  by_cases h3 : i < 3
  · have h61 : 61 ≤ 61 + i := by omega
    have hbit : (7 : Nat).testBit i = true := by interval_cases i <;> decide
    simp [hbit, h61, Nat.add_sub_cancel_left]
  · have hbit : (7 : Nat).testBit i = false := by
      have h7 : (7 : Nat) < 2 ^ i := by
        calc (7 : Nat) < 2 ^ 3 := by norm_num
          _ ≤ 2 ^ i := Nat.pow_le_pow_right (by norm_num) (by omega)
      exact Nat.testBit_lt_two_pow h7
    simp [hbit]

theorem and_mask32 (v : Nat) (h : v < 2 ^ 32) : v &&& 0xFFFFFFFF = v := by
  apply Nat.eq_of_testBit_eq
  intro i
  rw [Nat.testBit_and]
  by_cases h32 : i < 32
  · have hm : (0xFFFFFFFF : Nat).testBit i = true := by interval_cases i <;> decide
    simp [hm]
  · have hv : v.testBit i = false :=
      Nat.testBit_lt_two_pow (lt_of_lt_of_le h (Nat.pow_le_pow_right (by norm_num) (by omega)))
    simp [hv]

theorem tryFrom_toByte (k : PacketKind) : PacketKind.tryFrom k.toByte = .ok k := by
  cases k <;> rfl

theorem from_bits_truncate_of_lt (v : Nat) (h : v < 2 ^ 32) :
    PacketFlags.from_bits_truncate v = v :=
  and_mask32 v h

theorem data_decode_encode (d : Data) (rest : List Nat) (h : d.data.length < 2 ^ 64) :
    Data.decode (Data.encode d ++ rest) = .ok (d, rest) := by
  unfold Data.decode Data.encode
  rw [List.append_assoc]
  rw [if_pos (by simp [u64Bytes]), getU64_append _ _ (u64Bytes_length _),
    beVal_u64Bytes _ h, andThen_ok]
  dsimp only
  rw [if_pos (by simp), copyToBytes_append _ _ _ rfl, andThen_ok]

theorem kex_decode_encode (k : KeyExchange) (rest : List Nat)
    (ht : k.typ < 2 ^ 8) (hp : k.public_key.length < 2 ^ 32)
    (hs : k.signature.length < 2 ^ 32) :
    KeyExchange.decode (KeyExchange.encode k ++ rest) = .ok (k, rest) := by
  unfold KeyExchange.decode KeyExchange.encode
  simp only [List.append_assoc, List.cons_append, List.nil_append]
  rw [if_pos (by simp), getU8_cons, andThen_ok]
  dsimp only
  rw [if_pos (by simp [u32Bytes]), getU32_append _ _ (u32Bytes_length _),
    beVal_u32Bytes _ hp, andThen_ok]
  dsimp only
  rw [if_pos (by simp), copyToBytes_append _ _ _ rfl, andThen_ok]
  dsimp only
  rw [if_pos (by simp [u32Bytes]), getU32_append _ _ (u32Bytes_length _),
    beVal_u32Bytes _ hs, andThen_ok]
  dsimp only
  rw [if_pos (by simp), copyToBytes_append _ _ _ rfl, andThen_ok]
  dsimp only
  rw [Nat.mod_eq_of_lt (show k.typ < 256 by omega)]

theorem binding_decode_encode (b : Binding) (rest : List Nat)
    (hf : b.from_.bytes.length = DeviceID.LENGTH)
    (hb : b.body.length < 2 ^ 32) (hs : b.signature.length < 2 ^ 32) :
    Binding.decode (Binding.encode b ++ rest) = .ok (b, rest) := by
  unfold Binding.decode Binding.encode
  simp only [List.append_assoc]
  rw [if_pos (by simp [hf]), copyToBytes_append _ _ _ hf, andThen_ok]
  dsimp only
  rw [if_pos (by simp [u32Bytes]), getU32_append _ _ (u32Bytes_length _),
    beVal_u32Bytes _ hb, andThen_ok]
  dsimp only
  rw [if_pos (by simp), copyToBytes_append _ _ _ rfl, andThen_ok]
  dsimp only
  rw [if_pos (by simp [u32Bytes]), getU32_append _ _ (u32Bytes_length _),
    beVal_u32Bytes _ hs, andThen_ok]
  dsimp only
  rw [if_pos (by simp), copyToBytes_append _ _ _ rfl, andThen_ok]
  rfl

theorem beVal_singleton (b : Nat) : beVal [b] = b := by simp [beVal]

theorem getU8_of_le (buf : List Nat) (h : 1 ≤ buf.length) :
    getU8 buf = .ok (beVal (buf.take 1), buf.drop 1) := by
  unfold getU8
  rw [if_pos h]

theorem getU32_of_le (buf : List Nat) (h : 4 ≤ buf.length) :
    getU32 buf = .ok (beVal (buf.take 4), buf.drop 4) := by
  unfold getU32
  rw [if_pos h]

theorem getU64_of_le (buf : List Nat) (h : 8 ≤ buf.length) :
    getU64 buf = .ok (beVal (buf.take 8), buf.drop 8) := by
  unfold getU64
  rw [if_pos h]

theorem copyToBytes_of_le (n : Nat) (buf : List Nat) (h : n ≤ buf.length) :
    copyToBytes n buf = .ok (buf.take n, buf.drop n) := by
  unfold copyToBytes
  rw [if_pos h]

theorem drop_take_one_getD (bs : List Nat) (h : 9 ≤ bs.length) :
    (bs.drop 8).take 1 = [bs.getD 8 0] := by
  have hne : bs.drop 8 ≠ [] := by
    intro hnil
    have := congrArg List.length hnil
    simp at this
    omega
  obtain ⟨a, t, hat⟩ := List.exists_cons_of_ne_nil hne
  rw [hat]
  have ha : bs.getD 8 0 = a := by
    have h0 : (bs.drop 8).getD 0 0 = a := by rw [hat]; rfl
    rw [List.getD_eq_getElem?_getD] at h0 ⊢
    rw [← h0, List.getElem?_drop]
  rw [ha]
  simp

theorem tryFrom_error_eq (v : Nat) (e : DErr) (h : PacketKind.tryFrom v = .error e) :
    e = .unknownKind := by
  unfold PacketKind.tryFrom at h
  split_ifs at h
  injection h with h'
  exact h'.symm

/-! ## Claim C1 -/

/-- C1: round-trip identity — decoding the bytes produced by encoding any
machine-representable packet (any of the three body variants, any header
fields consistent with the body variant) yields the packet back
field-for-field. -/
theorem decode_encode_roundtrip (p : Packet) (h : p.WF) :
    Packet.decode p.encode = .ok p := by
  obtain ⟨⟨pid, kind, f, t, fl⟩, body⟩ := p
  obtain ⟨hkind, hpid, hfl, hf, ht, hbody⟩ := h
  dsimp only at hkind hpid hfl hf ht hbody
  subst hkind
  cases body with
  | Data d =>
      unfold Packet.decode Packet.encode
      simp only [List.append_assoc, List.cons_append, List.nil_append, PacketBody.encode,
        PacketBody.kindOf, PacketFlags.bits]
      rw [if_neg (by simp [u64Bytes, u32Bytes, PacketHeader.len, DeviceID.LENGTH, hf, ht,
        Data.encode]; omega)]
      rw [getU64_append _ _ (u64Bytes_length _), beVal_u64Bytes _ hpid, andThen_ok]
      dsimp only
      rw [getU8_cons, andThen_ok]
      dsimp only
      rw [tryFrom_toByte, andThen_ok]
      rw [copyToBytes_append _ _ _ hf, andThen_ok]
      dsimp only
      rw [copyToBytes_append _ _ _ ht, andThen_ok]
      dsimp only
      rw [getU32_append _ _ (u32Bytes_length _), beVal_u32Bytes _ hfl, andThen_ok]
      dsimp only
      have hd := data_decode_encode d [] hbody
      rw [List.append_nil] at hd
      rw [hd, andThen_ok]
      dsimp only
      rw [andThen_ok, from_bits_truncate_of_lt _ hfl]
      rfl
  | KeyExchange k =>
      obtain ⟨htyp, hp, hs⟩ := hbody
      unfold Packet.decode Packet.encode
      simp only [List.append_assoc, List.cons_append, List.nil_append, PacketBody.encode,
        PacketBody.kindOf, PacketFlags.bits]
      rw [if_neg (by simp [u64Bytes, u32Bytes, PacketHeader.len, DeviceID.LENGTH, hf, ht,
        KeyExchange.encode]; omega)]
      rw [getU64_append _ _ (u64Bytes_length _), beVal_u64Bytes _ hpid, andThen_ok]
      dsimp only
      rw [getU8_cons, andThen_ok]
      dsimp only
      rw [tryFrom_toByte, andThen_ok]
      rw [copyToBytes_append _ _ _ hf, andThen_ok]
      dsimp only
      rw [copyToBytes_append _ _ _ ht, andThen_ok]
      dsimp only
      rw [getU32_append _ _ (u32Bytes_length _), beVal_u32Bytes _ hfl, andThen_ok]
      dsimp only
      have hk := kex_decode_encode k [] htyp hp hs
      rw [List.append_nil] at hk
      rw [hk, andThen_ok]
      dsimp only
      rw [andThen_ok, from_bits_truncate_of_lt _ hfl]
      rfl
  | P2P b =>
      obtain ⟨hbf, hb, hs⟩ := hbody
      unfold Packet.decode Packet.encode
      simp only [List.append_assoc, List.cons_append, List.nil_append, PacketBody.encode,
        PacketBody.kindOf, PacketFlags.bits]
      rw [if_neg (by simp [u64Bytes, u32Bytes, PacketHeader.len, DeviceID.LENGTH, hf, ht,
        Binding.encode]; omega)]
      rw [getU64_append _ _ (u64Bytes_length _), beVal_u64Bytes _ hpid, andThen_ok]
      dsimp only
      rw [getU8_cons, andThen_ok]
      dsimp only
      rw [tryFrom_toByte, andThen_ok]
      rw [copyToBytes_append _ _ _ hf, andThen_ok]
      dsimp only
      rw [copyToBytes_append _ _ _ ht, andThen_ok]
      dsimp only
      rw [getU32_append _ _ (u32Bytes_length _), beVal_u32Bytes _ hfl, andThen_ok]
      dsimp only
      have hbd := binding_decode_encode b [] hbf hb hs
      rw [List.append_nil] at hbd
      rw [hbd, andThen_ok]
      dsimp only
      rw [andThen_ok, from_bits_truncate_of_lt _ hfl]
      rfl

/-- C1 witness: the round-trip theorem applied to the concrete `"ping"`
packet. -/
theorem decode_encode_roundtrip_witness :
    Packet.WF pingPacket ∧ Packet.decode pingPacket.encode = .ok pingPacket := by
  have hwf : Packet.WF pingPacket :=
    ⟨rfl, by decide, by decide, by decide, by decide,
      by show (4 : Nat) < 2 ^ 64; decide⟩
  exact ⟨hwf, decode_encode_roundtrip pingPacket hwf⟩

/-! ## Claim C9 -/

/-- C9: every packet built through `Packet::with_id` — and therefore also
through `Packet::new`, which delegates to it — stores
`packet_id = id ||| (0b111 <<< 61)`, so the top three bits are always set and
`ttl()` returns 7 on every constructor-built packet. -/
theorem constructors_set_ttl (id : Nat) (from_ to_ : DeviceID) (body : PacketBody) :
    (Packet.with_id id from_ to_ body).header.packet_id = id ||| (0b111 <<< 61)
    ∧ (Packet.with_id id from_ to_ body).header.ttl = 7
    ∧ ∀ ctr : Nat,
        ((Packet.new ctr from_ to_ body).1).header.packet_id
            = (ctr % 2 ^ 64) ||| (0b111 <<< 61)
        ∧ ((Packet.new ctr from_ to_ body).1).header.ttl = 7 := by
  refine ⟨rfl, ?_, fun ctr => ⟨rfl, ?_⟩⟩
  · show ((id ||| (DEFAULT_TTL <<< 61)) >>> 61) &&& 0b111 = 7
    exact or_high_ttl id
  · show (((ctr % 2 ^ 64) ||| (DEFAULT_TTL <<< 61)) >>> 61) &&& 0b111 = 7
    exact or_high_ttl (ctr % 2 ^ 64)

/-! ## Claim C2 -/

/-- C2: counterexample — `Packet::with_id(0, …)` does **not** store the
caller-supplied id verbatim: it ORs in `0b111 << 61`, so the stored
`packet_id` is `0xE000000000000000`, not `0`, and `ttl()` returns `7` while
the claim's formula `(0 >> 61) & 0b111` gives `0`. -/
theorem with_id_id_not_verbatim :
    (Packet.with_id 0 devZero devZero (PacketBody.Data ⟨[]⟩)).header.packet_id ≠ 0
    ∧ (Packet.with_id 0 devZero devZero (PacketBody.Data ⟨[]⟩)).header.ttl = 7
    ∧ ((0 : Nat) >>> 61) &&& 0b111 = 0 := by
  decide

/-- C2 amended: `with_id(id, …)` stores `id | (0b111 << 61)` (it applies the
default TTL shift over the caller's input, exactly as `new` does), and
consequently `ttl()` on the resulting packet returns 7 for every caller id,
not `(id >> 61) & 0b111`. -/
theorem with_id_ors_default_ttl (id : Nat) (from_ to_ : DeviceID) (body : PacketBody) :
    (Packet.with_id id from_ to_ body).header.packet_id = id ||| (DEFAULT_TTL <<< 61)
    ∧ (Packet.with_id id from_ to_ body).header.ttl = 7 :=
  ⟨rfl, or_high_ttl id⟩

/-! ## Claim C3 -/

/-- C3: counterexample — the aggregate body-length operation does not return
the serialized size: for a `Data` body with a 3-byte payload it returns `3`,
not `8 + 3`, and for a P2P (`Binding`) body it returns `0`, not
`16 + 8 + body.len + signature.len`. -/
theorem body_len_not_serialized_size :
    (PacketBody.Data ⟨[10, 20, 30]⟩).len ≠ 8 + 3
    ∧ (PacketBody.P2P ⟨devZero, [1], [2, 3]⟩).len
        ≠ DeviceID.LENGTH + 8 + 1 + 2 := by
  decide

/-- C3 amended: `Data::len` returns `data.len()` alone (without the 8-byte
u64 length prefix); `PacketBody::len` returns `0` for every P2P body (the
`Binding` serialized size is not computed at all); only `KeyExchange::len`
returns its exact serialized size `1 + 4 + public_key.len + 4 +
signature.len`. -/
theorem body_len_values :
    (∀ d : Data, (PacketBody.Data d).len = d.data.length)
    ∧ (∀ k : KeyExchange, (PacketBody.KeyExchange k).len
        = 1 + 4 + k.public_key.length + 4 + k.signature.length)
    ∧ (∀ b : Binding, (PacketBody.P2P b).len = 0) := by
  refine ⟨fun d => rfl, fun k => ?_, fun b => rfl⟩
  simp [PacketBody.len, KeyExchange.len]
  omega

/-! ## Claim C4 -/

/-- C4: counterexample — for a `Data` body the encoded buffer is longer than
`Packet::len` reports: with an empty payload the buffer has 53 bytes while
`len()` claims 45. -/
theorem encode_length_ne_len :
    ((Packet.with_id 0 devZero devZero (PacketBody.Data ⟨[]⟩)).encode).length
      ≠ (Packet.with_id 0 devZero devZero (PacketBody.Data ⟨[]⟩)).len := by
  decide

/-- C4 amended: the encoded buffer's length equals `Packet::len` only for
`KeyExchange` bodies; for a `Data` body it exceeds `len()` by the 8-byte
length prefix that `Data::len` omits, and for a P2P body by the entire
serialized `Binding` (16-byte identifier + two 4-byte prefixes + payloads),
since `PacketBody::len` reports 0 for P2P. -/
theorem encode_length_by_variant (p : Packet)
    (hf : p.header.from_.bytes.length = DeviceID.LENGTH)
    (ht : p.header.to_.bytes.length = DeviceID.LENGTH)
    (hb : match p.body with
          | .P2P b => b.from_.bytes.length = DeviceID.LENGTH
          | _ => True) :
    (p.encode).length = p.len
      + (match p.body with
         | .Data _ => 8
         | .KeyExchange _ => 0
         | .P2P b => DeviceID.LENGTH + 8 + b.body.length + b.signature.length) := by
  obtain ⟨⟨pid, kind, f, t, fl⟩, body⟩ := p
  cases body with
  | Data d =>
      simp [Packet.encode, Packet.len, PacketBody.encode, PacketBody.len, Data.encode,
        Data.len, PacketHeader.len, u64Bytes, u32Bytes, DeviceID.LENGTH] at *
      omega
  | KeyExchange k =>
      simp [Packet.encode, Packet.len, PacketBody.encode, PacketBody.len, KeyExchange.encode,
        KeyExchange.len, PacketHeader.len, u64Bytes, u32Bytes, DeviceID.LENGTH] at *
      omega
  | P2P b =>
      simp [Packet.encode, Packet.len, PacketBody.encode, PacketBody.len, Binding.encode,
        PacketHeader.len, u64Bytes, u32Bytes, DeviceID.LENGTH] at *
      omega

/-- C4 witness: the amended statement evaluated on a concrete `Data` packet. -/
theorem encode_length_by_variant_witness :
    ((Packet.with_id 0 devZero devZero (PacketBody.Data ⟨[7]⟩)).encode).length
      = (Packet.with_id 0 devZero devZero (PacketBody.Data ⟨[7]⟩)).len + 8 :=
  encode_length_by_variant _ (by decide) (by decide) (by trivial)

/-! ## Claim C7 -/

/-- C7: counterexample — the spec's example buffer length is wrong: encoding
the `"ping"` packet produces 57 bytes (`13 + 2 × 16 + 8 + 4 = 57`), not 69. -/
theorem ping_encoding_not_69 :
    (pingPacket.encode).length ≠ 69 ∧ 13 + 2 * 16 + 8 + 4 ≠ 69 := by
  decide

/-- C7 amended: encoding a `Data` body with `data = b"ping"` (4 bytes) inside
a packet whose `from`/`to` are zero-valued 16-byte identifiers produces a
buffer of exactly 57 bytes (`13 + 2 × 16 + 8 + 4 = 57`), and decoding that
buffer yields `data == b"ping"` and `kind == Data`. -/
theorem ping_encoding_57 :
    (pingPacket.encode).length = 57
    ∧ 13 + 2 * 16 + 8 + 4 = 57
    ∧ Packet.decode pingPacket.encode = .ok pingPacket
    ∧ pingPacket.body = PacketBody.Data ⟨[112, 105, 110, 103]⟩
    ∧ pingPacket.header.kind = PacketKind.Data := by
  decide

/-! ## Claim C5 -/

theorem getU8_append1 (b : Nat) (rest : List Nat) : getU8 ([b] ++ rest) = .ok (b, rest) := by
  simp [getU8, beVal]

theorem data_decode_truncated (d : Data) (j : Nat) (hlen : d.data.length < 2 ^ 64)
    (hj : j < (Data.encode d).length) :
    Data.decode ((Data.encode d).take j) = .error .insufficientData := by
  have htot : (Data.encode d).length = 8 + d.data.length := by
    simp [Data.encode, u64Bytes]
    omega
  unfold Data.decode
  by_cases h8 : 8 ≤ j
  · have hbuf : (Data.encode d).take j
        = u64Bytes d.data.length ++ d.data.take (j - 8) := by
      unfold Data.encode
      rw [take_append_ge (u64Bytes d.data.length) d.data j (by simp [u64Bytes]; omega)]
      simp only [u64Bytes_length]
    rw [hbuf]
    rw [if_pos (by simp [u64Bytes])]
    rw [getU64_append _ _ (u64Bytes_length _), beVal_u64Bytes _ hlen, andThen_ok]
    dsimp only
    rw [if_neg (by simp [List.length_take]; omega), andThen_error]
  · rw [if_neg (by simp [List.length_take]; omega), andThen_error]



theorem kex_decode_truncated (kx : KeyExchange) (j : Nat)
    (hp : kx.public_key.length < 2 ^ 32) (hs : kx.signature.length < 2 ^ 32)
    (hj : j < (KeyExchange.encode kx).length) :
    KeyExchange.decode ((KeyExchange.encode kx).take j) = .error .insufficientData := by
  have htot : (KeyExchange.encode kx).length
      = 9 + kx.public_key.length + kx.signature.length := by
    simp [KeyExchange.encode, u32Bytes]
    omega
  unfold KeyExchange.decode
  by_cases h1 : 1 ≤ j
  · have hbuf : (KeyExchange.encode kx).take j
        = [kx.typ % 256] ++ ((u32Bytes kx.public_key.length
            ++ (kx.public_key ++ (u32Bytes kx.signature.length ++ kx.signature))).take (j - 1)) := by
      unfold KeyExchange.encode
      simp only [List.append_assoc]
      rw [take_append_ge [kx.typ % 256] _ j (by simp; omega)]
      simp
    rw [hbuf]
    rw [if_pos (by simp)]
    rw [getU8_append1, andThen_ok]
    dsimp only
    by_cases h4 : 4 ≤ j - 1
    · rw [take_append_ge (u32Bytes kx.public_key.length) _ (j - 1) (by simp [u32Bytes]; omega)]
      simp only [u32Bytes_length]
      rw [if_pos (by simp [u32Bytes])]
      rw [getU32_append _ _ (u32Bytes_length _), beVal_u32Bytes _ hp, andThen_ok]
      dsimp only
      by_cases hpub : kx.public_key.length ≤ j - 1 - 4
      · rw [take_append_ge kx.public_key _ (j - 1 - 4) hpub]
        rw [if_pos (by simp)]
        rw [copyToBytes_append _ _ _ rfl, andThen_ok]
        dsimp only
        by_cases hsig4 : 4 ≤ j - 1 - 4 - kx.public_key.length
        · rw [take_append_ge (u32Bytes kx.signature.length) _ _ (by simp [u32Bytes]; omega)]
          simp only [u32Bytes_length]
          rw [if_pos (by simp [u32Bytes])]
          rw [getU32_append _ _ (u32Bytes_length _), beVal_u32Bytes _ hs, andThen_ok]
          dsimp only
          rw [if_neg (by simp [List.length_take]; omega), andThen_error]
        · rw [if_neg (by simp [List.length_take, u32Bytes]; omega), andThen_error]
      · rw [if_neg (by simp [List.length_take, u32Bytes]; omega), andThen_error]
    · rw [if_neg (by simp [List.length_take, u32Bytes]; omega), andThen_error]
  · rw [if_neg (by simp [List.length_take]; omega), andThen_error]

theorem binding_decode_truncated (b : Binding) (j : Nat)
    (hbf : b.from_.bytes.length = DeviceID.LENGTH)
    (hb : b.body.length < 2 ^ 32) (hs : b.signature.length < 2 ^ 32)
    (hj : j < (Binding.encode b).length) :
    Binding.decode ((Binding.encode b).take j) = .error .insufficientData := by
  have htot : (Binding.encode b).length
      = 24 + b.body.length + b.signature.length := by
    simp [Binding.encode, u32Bytes, hbf, DeviceID.LENGTH]
    omega
  unfold Binding.decode
  by_cases h16 : DeviceID.LENGTH ≤ j
  · have hbuf : (Binding.encode b).take j
        = b.from_.bytes ++ ((u32Bytes b.body.length
            ++ (b.body ++ (u32Bytes b.signature.length ++ b.signature))).take (j - 16)) := by
      unfold Binding.encode
      simp only [List.append_assoc]
      rw [take_append_ge b.from_.bytes _ j (by simp [hbf, DeviceID.LENGTH] at *; omega)]
      rw [hbf]
      rfl
    rw [hbuf]
    rw [if_pos (by simp [hbf])]
    rw [copyToBytes_append _ _ _ hbf, andThen_ok]
    dsimp only
    by_cases h4 : 4 ≤ j - 16
    · rw [take_append_ge (u32Bytes b.body.length) _ (j - 16) (by simp [u32Bytes]; omega)]
      simp only [u32Bytes_length]
      rw [if_pos (by simp [u32Bytes])]
      rw [getU32_append _ _ (u32Bytes_length _), beVal_u32Bytes _ hb, andThen_ok]
      dsimp only
      by_cases hbody : b.body.length ≤ j - 16 - 4
      · rw [take_append_ge b.body _ (j - 16 - 4) hbody]
        rw [if_pos (by simp)]
        rw [copyToBytes_append _ _ _ rfl, andThen_ok]
        dsimp only
        by_cases hsig4 : 4 ≤ j - 16 - 4 - b.body.length
        · rw [take_append_ge (u32Bytes b.signature.length) _ _ (by simp [u32Bytes]; omega)]
          simp only [u32Bytes_length]
          rw [if_pos (by simp [u32Bytes])]
          rw [getU32_append _ _ (u32Bytes_length _), beVal_u32Bytes _ hs, andThen_ok]
          dsimp only
          rw [if_neg (by simp [List.length_take]; omega), andThen_error]
        · rw [if_neg (by simp [List.length_take, u32Bytes]; omega), andThen_error]
      · rw [if_neg (by simp [List.length_take, u32Bytes]; omega), andThen_error]
    · rw [if_neg (by simp [List.length_take, u32Bytes]; omega), andThen_error]
  · rw [if_neg (by simp [List.length_take, DeviceID.LENGTH] at *; omega), andThen_error]



/-- C5: truncating any valid encoded packet buffer at any offset strictly
less than its full length makes decode fail with `InsufficientData` — never
`UnknownKind` and never a successfully decoded wrong packet. -/
theorem truncated_decode (p : Packet) (h : p.WF) (k : Nat) (hk : k < p.encode.length) :
    Packet.decode (p.encode.take k) = .error .insufficientData := by
  obtain ⟨⟨pid, kind, f, t, fl⟩, body⟩ := p
  obtain ⟨hkind, hpid, hfl, hf, ht, hbody⟩ := h
  dsimp only at hkind hpid hfl hf ht hbody
  subst hkind
  by_cases hk45 : k < PacketHeader.len
  · unfold Packet.decode
    rw [if_pos (by rw [length_take_eq _ _ (le_of_lt hk)]; exact hk45)]
  · have h45 : 45 ≤ k := by
      simp only [PacketHeader.len, DeviceID.LENGTH] at hk45
      omega
    cases body with
    | Data d =>
        simp only [Packet.encode, PacketBody.encode, PacketBody.kindOf, PacketFlags.bits,
          List.append_assoc] at hk ⊢
        have hk' : k < 45 + (Data.encode d).length := by
          simp only [List.length_append, u64Bytes_length, u32Bytes_length,
            List.length_singleton, hf, ht, DeviceID.LENGTH] at hk
          omega
        have hbuf : (u64Bytes pid ++ ([PacketKind.Data.toByte] ++ (f.bytes ++ (t.bytes
              ++ (u32Bytes fl ++ Data.encode d))))).take k
            = u64Bytes pid ++ ([PacketKind.Data.toByte] ++ (f.bytes ++ (t.bytes
              ++ (u32Bytes fl ++ (Data.encode d).take (k - 45))))) := by
          rw [take_append_ge (u64Bytes pid) _ k (by simp [u64Bytes]; omega)]
          simp only [u64Bytes_length]
          rw [take_append_ge [PacketKind.Data.toByte] _ (k - 8) (by simp; omega)]
          simp only [List.length_singleton]
          rw [take_append_ge f.bytes _ _ (by simp [hf, DeviceID.LENGTH]; omega)]
          rw [take_append_ge t.bytes _ _ (by simp [hf, ht, DeviceID.LENGTH]; omega)]
          rw [take_append_ge (u32Bytes fl) _ _ (by simp [hf, ht, DeviceID.LENGTH, u32Bytes]; omega)]
          simp only [u32Bytes_length, hf, ht, DeviceID.LENGTH]
          have harith : k - 8 - 1 - 16 - 16 - 4 = k - 45 := by omega
          rw [harith]
        rw [hbuf]
        unfold Packet.decode
        rw [if_neg (by simp [u64Bytes, u32Bytes, List.length_take, PacketHeader.len,
          DeviceID.LENGTH, hf, ht]; omega)]
        rw [getU64_append _ _ (u64Bytes_length _), beVal_u64Bytes _ hpid, andThen_ok]
        dsimp only
        rw [getU8_append1, andThen_ok]
        dsimp only
        rw [tryFrom_toByte, andThen_ok]
        rw [copyToBytes_append _ _ _ hf, andThen_ok]
        dsimp only
        rw [copyToBytes_append _ _ _ ht, andThen_ok]
        dsimp only
        rw [getU32_append _ _ (u32Bytes_length _), andThen_ok]
        dsimp only
        rw [data_decode_truncated d (k - 45) hbody (by omega)]
        rw [andThen_error, andThen_error]
    | KeyExchange kx =>
        obtain ⟨htyp, hp, hs⟩ := hbody
        simp only [Packet.encode, PacketBody.encode, PacketBody.kindOf, PacketFlags.bits,
          List.append_assoc] at hk ⊢
        have hk' : k < 45 + (KeyExchange.encode kx).length := by
          simp only [List.length_append, u64Bytes_length, u32Bytes_length,
            List.length_singleton, hf, ht, DeviceID.LENGTH] at hk
          omega
        have hbuf : (u64Bytes pid ++ ([PacketKind.KeyExchange.toByte] ++ (f.bytes ++ (t.bytes
              ++ (u32Bytes fl ++ KeyExchange.encode kx))))).take k
            = u64Bytes pid ++ ([PacketKind.KeyExchange.toByte] ++ (f.bytes ++ (t.bytes
              ++ (u32Bytes fl ++ (KeyExchange.encode kx).take (k - 45))))) := by
          rw [take_append_ge (u64Bytes pid) _ k (by simp [u64Bytes]; omega)]
          simp only [u64Bytes_length]
          rw [take_append_ge [PacketKind.KeyExchange.toByte] _ (k - 8) (by simp; omega)]
          simp only [List.length_singleton]
          rw [take_append_ge f.bytes _ _ (by simp [hf, DeviceID.LENGTH]; omega)]
          rw [take_append_ge t.bytes _ _ (by simp [hf, ht, DeviceID.LENGTH]; omega)]
          rw [take_append_ge (u32Bytes fl) _ _ (by simp [hf, ht, DeviceID.LENGTH, u32Bytes]; omega)]
          simp only [u32Bytes_length, hf, ht, DeviceID.LENGTH]
          have harith : k - 8 - 1 - 16 - 16 - 4 = k - 45 := by omega
          rw [harith]
        rw [hbuf]
        unfold Packet.decode
        rw [if_neg (by simp [u64Bytes, u32Bytes, List.length_take, PacketHeader.len,
          DeviceID.LENGTH, hf, ht]; omega)]
        rw [getU64_append _ _ (u64Bytes_length _), beVal_u64Bytes _ hpid, andThen_ok]
        dsimp only
        rw [getU8_append1, andThen_ok]
        dsimp only
        rw [tryFrom_toByte, andThen_ok]
        rw [copyToBytes_append _ _ _ hf, andThen_ok]
        dsimp only
        rw [copyToBytes_append _ _ _ ht, andThen_ok]
        dsimp only
        rw [getU32_append _ _ (u32Bytes_length _), andThen_ok]
        dsimp only
        rw [kex_decode_truncated kx (k - 45) hp hs (by omega)]
        rw [andThen_error, andThen_error]
    | P2P b =>
        obtain ⟨hbf, hb, hs⟩ := hbody
        simp only [Packet.encode, PacketBody.encode, PacketBody.kindOf, PacketFlags.bits,
          List.append_assoc] at hk ⊢
        have hk' : k < 45 + (Binding.encode b).length := by
          simp only [List.length_append, u64Bytes_length, u32Bytes_length,
            List.length_singleton, hf, ht, DeviceID.LENGTH] at hk
          omega
        have hbuf : (u64Bytes pid ++ ([PacketKind.P2P.toByte] ++ (f.bytes ++ (t.bytes
              ++ (u32Bytes fl ++ Binding.encode b))))).take k
            = u64Bytes pid ++ ([PacketKind.P2P.toByte] ++ (f.bytes ++ (t.bytes
              ++ (u32Bytes fl ++ (Binding.encode b).take (k - 45))))) := by
          rw [take_append_ge (u64Bytes pid) _ k (by simp [u64Bytes]; omega)]
          simp only [u64Bytes_length]
          rw [take_append_ge [PacketKind.P2P.toByte] _ (k - 8) (by simp; omega)]
          simp only [List.length_singleton]
          rw [take_append_ge f.bytes _ _ (by simp [hf, DeviceID.LENGTH]; omega)]
          rw [take_append_ge t.bytes _ _ (by simp [hf, ht, DeviceID.LENGTH]; omega)]
          rw [take_append_ge (u32Bytes fl) _ _ (by simp [hf, ht, DeviceID.LENGTH, u32Bytes]; omega)]
          simp only [u32Bytes_length, hf, ht, DeviceID.LENGTH]
          have harith : k - 8 - 1 - 16 - 16 - 4 = k - 45 := by omega
          rw [harith]
        rw [hbuf]
        unfold Packet.decode
        rw [if_neg (by simp [u64Bytes, u32Bytes, List.length_take, PacketHeader.len,
          DeviceID.LENGTH, hf, ht]; omega)]
        rw [getU64_append _ _ (u64Bytes_length _), beVal_u64Bytes _ hpid, andThen_ok]
        dsimp only
        rw [getU8_append1, andThen_ok]
        dsimp only
        rw [tryFrom_toByte, andThen_ok]
        rw [copyToBytes_append _ _ _ hf, andThen_ok]
        dsimp only
        rw [copyToBytes_append _ _ _ ht, andThen_ok]
        dsimp only
        rw [getU32_append _ _ (u32Bytes_length _), andThen_ok]
        dsimp only
        rw [binding_decode_truncated b (k - 45) hbf hb hs (by omega)]
        rw [andThen_error, andThen_error]

/-- C5 witness: the `"ping"` packet's 57-byte encoding truncated to 56
bytes. -/
theorem truncated_decode_witness :
    Packet.WF pingPacket ∧ 56 < pingPacket.encode.length
    ∧ Packet.decode (pingPacket.encode.take 56) = .error .insufficientData := by
  have hwf : Packet.WF pingPacket :=
    ⟨rfl, by decide, by decide, by decide, by decide,
      by show (4 : Nat) < 2 ^ 64; decide⟩
  have hlt : 56 < pingPacket.encode.length := by decide
  exact ⟨hwf, hlt, truncated_decode pingPacket hwf 56 hlt⟩

/-! ## Claim C6 -/

/-- C6: for every buffer at least as long as the fixed header, if the kind
byte (offset 8) is none of `0x01`, `0x10`, `0x06`, decoding returns the
`UnknownKind` error — regardless of what the rest of the buffer holds — and
each of the three registered kind bytes is accepted by the registry. -/
theorem unknown_kind_rejected (bs : List Nat)
    (hlen : PacketHeader.len ≤ bs.length)
    (h1 : bs.getD 8 0 ≠ 0x01) (h16 : bs.getD 8 0 ≠ 0x10) (h6 : bs.getD 8 0 ≠ 0x06) :
    Packet.decode bs = .error .unknownKind
    ∧ PacketKind.tryFrom 0x01 = .ok PacketKind.Data
    ∧ PacketKind.tryFrom 0x06 = .ok PacketKind.P2P
    ∧ PacketKind.tryFrom 0x10 = .ok PacketKind.KeyExchange := by
  have h45 : (45 : Nat) ≤ bs.length := hlen
  refine ⟨?_, rfl, rfl, rfl⟩
  unfold Packet.decode
  rw [if_neg (by omega)]
  rw [getU64_of_le _ (by omega), andThen_ok]
  dsimp only
  rw [getU8_of_le _ (by simp; omega), andThen_ok]
  dsimp only
  rw [drop_take_one_getD bs (by omega), beVal_singleton]
  unfold PacketKind.tryFrom
  rw [if_neg h1, if_neg h16, if_neg h6, andThen_error]

/-- C6 witness: a 45-byte all-zero buffer (kind byte `0x00`). -/
theorem unknown_kind_rejected_witness :
    Packet.decode (List.replicate 45 0) = .error .unknownKind
    ∧ PacketKind.tryFrom 0x01 = .ok PacketKind.Data
    ∧ PacketKind.tryFrom 0x06 = .ok PacketKind.P2P
    ∧ PacketKind.tryFrom 0x10 = .ok PacketKind.KeyExchange :=
  unknown_kind_rejected (List.replicate 45 0) (by decide) (by decide) (by decide) (by decide)

/-! ## Claim C10 -/

/-- C10: (1) `from_bits_truncate` is the identity on every 32-bit value, since
`PacketFlags` defines all 32 bits; (2) re-encoding a truncated flags word
reproduces the original four flag bytes, so any flags word survives a
decode-then-encode round trip; (3) on any buffer that `Packet::decode`
accepts and whose header spells a registered kind and a 32-bit flags word
`v` at the flags offset, the decoded packet's flags are exactly `v`. -/
theorem flags_roundtrip :
    (∀ v : Nat, v < 2 ^ 32 → PacketFlags.from_bits_truncate v = v)
    ∧ (∀ b0 b1 b2 b3 : Nat, b0 < 256 → b1 < 256 → b2 < 256 → b3 < 256 →
        u32Bytes (PacketFlags.bits (PacketFlags.from_bits_truncate (beVal [b0, b1, b2, b3])))
          = [b0, b1, b2, b3])
    ∧ (∀ (kb : PacketKind) (id v : Nat) (f16 t16 rest : List Nat) (p : Packet),
        f16.length = DeviceID.LENGTH → t16.length = DeviceID.LENGTH → v < 2 ^ 32 →
        Packet.decode (u64Bytes id ++ [kb.toByte] ++ f16 ++ t16 ++ u32Bytes v ++ rest)
          = .ok p →
        p.header.flags = v) := by
  refine ⟨from_bits_truncate_of_lt, ?_, ?_⟩
  · intro b0 b1 b2 b3 h0 h1 h2 h3
    have hlt : beVal [b0, b1, b2, b3] < 2 ^ 32 := by
      simp only [beVal, List.foldl_cons, List.foldl_nil]
      omega
    rw [from_bits_truncate_of_lt _ hlt, PacketFlags.bits]
    simp only [beVal, List.foldl_cons, List.foldl_nil, u32Bytes]
    refine List.ext_getElem (by simp) ?_
    intro i hi _
    match i, hi with
    | 0, _ => simp; omega
    | 1, _ => simp; omega
    | 2, _ => simp; omega
    | 3, _ => simp; omega
  · intro kb id v f16 t16 rest p hf ht hv hok
    unfold Packet.decode at hok
    rw [if_neg (by simp [u64Bytes, u32Bytes, PacketHeader.len, DeviceID.LENGTH, hf, ht]; omega)] at hok
    simp only [List.append_assoc, List.cons_append, List.nil_append] at hok
    rw [getU64_append _ _ (u64Bytes_length _), andThen_ok] at hok
    dsimp only at hok
    rw [getU8_cons, andThen_ok] at hok
    dsimp only at hok
    rw [tryFrom_toByte, andThen_ok] at hok
    rw [copyToBytes_append _ _ _ hf, andThen_ok] at hok
    dsimp only at hok
    rw [copyToBytes_append _ _ _ ht, andThen_ok] at hok
    dsimp only at hok
    rw [getU32_append _ _ (u32Bytes_length _), beVal_u32Bytes _ hv, andThen_ok] at hok
    dsimp only at hok
    cases kb with
    | Data =>
        dsimp only at hok
        cases hdec : Data.decode rest with
        | error e => rw [hdec, andThen_error, andThen_error] at hok; cases hok
        | ok r =>
            obtain ⟨b, r2⟩ := r
            rw [hdec, andThen_ok] at hok
            dsimp only at hok
            rw [andThen_ok] at hok
            injection hok with hok
            rw [← hok]
            exact from_bits_truncate_of_lt _ hv
    | KeyExchange =>
        dsimp only at hok
        cases hdec : KeyExchange.decode rest with
        | error e => rw [hdec, andThen_error, andThen_error] at hok; cases hok
        | ok r =>
            obtain ⟨b, r2⟩ := r
            rw [hdec, andThen_ok] at hok
            dsimp only at hok
            rw [andThen_ok] at hok
            injection hok with hok
            rw [← hok]
            exact from_bits_truncate_of_lt _ hv
    | P2P =>
        dsimp only at hok
        cases hdec : Binding.decode rest with
        | error e => rw [hdec, andThen_error, andThen_error] at hok; cases hok
        | ok r =>
            obtain ⟨b, r2⟩ := r
            rw [hdec, andThen_ok] at hok
            dsimp only at hok
            rw [andThen_ok] at hok
            injection hok with hok
            rw [← hok]
            exact from_bits_truncate_of_lt _ hv

/-- C10 witness: the three parts evaluated at concrete inputs (flags word
`0xDEADBEEF`; flag bytes `[1, 2, 3, 4]`; a decoded packet whose header
carries flags word 5). -/
theorem flags_roundtrip_witness :
    PacketFlags.from_bits_truncate 0xDEADBEEF = 0xDEADBEEF
    ∧ u32Bytes (PacketFlags.bits (PacketFlags.from_bits_truncate (beVal [1, 2, 3, 4])))
        = [1, 2, 3, 4]
    ∧ (⟨⟨7, PacketKind.Data, devZero, devZero, 5⟩, PacketBody.Data ⟨[]⟩⟩ :
        Packet).header.flags = 5 :=
  ⟨flags_roundtrip.1 0xDEADBEEF (by decide),
   flags_roundtrip.2.1 1 2 3 4 (by decide) (by decide) (by decide) (by decide),
   flags_roundtrip.2.2 PacketKind.Data 7 5 devZero.bytes devZero.bytes (u64Bytes 0) _
     (by decide) (by decide) (by decide) (by decide)⟩

/-! ## Claim C8 -/

theorem data_decode_shape (buf : List Nat) :
    (∃ r, Data.decode buf = .ok r) ∨ Data.decode buf = .error .insufficientData := by
  unfold Data.decode
  by_cases h8 : 8 ≤ buf.length
  · rw [if_pos h8, getU64_of_le _ h8, andThen_ok]
    dsimp only
    by_cases hl : beVal (buf.take 8) ≤ (buf.drop 8).length
    · rw [if_pos hl, copyToBytes_of_le _ _ hl, andThen_ok]
      exact Or.inl ⟨_, rfl⟩
    · rw [if_neg hl, andThen_error]
      exact Or.inr rfl
  · rw [if_neg h8, andThen_error]
    exact Or.inr rfl

theorem kex_decode_shape (buf : List Nat) :
    (∃ r, KeyExchange.decode buf = .ok r)
    ∨ KeyExchange.decode buf = .error .insufficientData := by
  unfold KeyExchange.decode
  by_cases h1 : 1 ≤ buf.length
  · rw [if_pos h1, getU8_of_le _ h1, andThen_ok]
    dsimp only
    by_cases h2 : 4 ≤ (buf.drop 1).length
    · rw [if_pos h2, getU32_of_le _ h2, andThen_ok]
      dsimp only
      by_cases h3 : beVal ((buf.drop 1).take 4) ≤ ((buf.drop 1).drop 4).length
      · rw [if_pos h3, copyToBytes_of_le _ _ h3, andThen_ok]
        dsimp only
        by_cases h4 : 4 ≤ (((buf.drop 1).drop 4).drop (beVal ((buf.drop 1).take 4))).length
        · rw [if_pos h4, getU32_of_le _ h4, andThen_ok]
          dsimp only
          by_cases h5 : beVal ((((buf.drop 1).drop 4).drop (beVal ((buf.drop 1).take 4))).take 4)
              ≤ ((((buf.drop 1).drop 4).drop (beVal ((buf.drop 1).take 4))).drop 4).length
          · rw [if_pos h5, copyToBytes_of_le _ _ h5, andThen_ok]
            exact Or.inl ⟨_, rfl⟩
          · rw [if_neg h5, andThen_error]
            exact Or.inr rfl
        · rw [if_neg h4, andThen_error]
          exact Or.inr rfl
      · rw [if_neg h3, andThen_error]
        exact Or.inr rfl
    · rw [if_neg h2, andThen_error]
      exact Or.inr rfl
  · rw [if_neg h1, andThen_error]
    exact Or.inr rfl

theorem binding_decode_shape (buf : List Nat) :
    (∃ r, Binding.decode buf = .ok r)
    ∨ Binding.decode buf = .error .insufficientData := by
  unfold Binding.decode
  by_cases h1 : DeviceID.LENGTH ≤ buf.length
  · rw [if_pos h1, copyToBytes_of_le _ _ h1, andThen_ok]
    dsimp only
    by_cases h2 : 4 ≤ (buf.drop DeviceID.LENGTH).length
    · rw [if_pos h2, getU32_of_le _ h2, andThen_ok]
      dsimp only
      by_cases h3 : beVal ((buf.drop DeviceID.LENGTH).take 4)
          ≤ ((buf.drop DeviceID.LENGTH).drop 4).length
      · rw [if_pos h3, copyToBytes_of_le _ _ h3, andThen_ok]
        dsimp only
        by_cases h4 : 4 ≤ (((buf.drop DeviceID.LENGTH).drop 4).drop
            (beVal ((buf.drop DeviceID.LENGTH).take 4))).length
        · rw [if_pos h4, getU32_of_le _ h4, andThen_ok]
          dsimp only
          by_cases h5 : beVal ((((buf.drop DeviceID.LENGTH).drop 4).drop
                (beVal ((buf.drop DeviceID.LENGTH).take 4))).take 4)
              ≤ ((((buf.drop DeviceID.LENGTH).drop 4).drop
                (beVal ((buf.drop DeviceID.LENGTH).take 4))).drop 4).length
          · rw [if_pos h5, copyToBytes_of_le _ _ h5, andThen_ok]
            exact Or.inl ⟨_, rfl⟩
          · rw [if_neg h5, andThen_error]
            exact Or.inr rfl
        · rw [if_neg h4, andThen_error]
          exact Or.inr rfl
      · rw [if_neg h3, andThen_error]
        exact Or.inr rfl
    · rw [if_neg h2, andThen_error]
      exact Or.inr rfl
  · rw [if_neg h1, andThen_error]
    exact Or.inr rfl

/-- C8: `Packet::decode` is total on arbitrary input bytes — it returns a
packet or one of the two typed errors; the `panic` outcome (an unguarded
buffer over-read) is unreachable, because every read in the header and body
decoders is preceded by a remaining-length check. -/
theorem decode_total (bs : List Nat) :
    (∃ p, Packet.decode bs = .ok p)
    ∨ Packet.decode bs = .error .insufficientData
    ∨ Packet.decode bs = .error .unknownKind := by
  unfold Packet.decode
  by_cases hg : bs.length < PacketHeader.len
  · rw [if_pos hg]
    exact Or.inr (Or.inl rfl)
  · rw [if_neg hg]
    have h45 : (45 : Nat) ≤ bs.length := by
      simp only [PacketHeader.len, DeviceID.LENGTH] at hg
      omega
    rw [getU64_of_le _ (by omega), andThen_ok]
    dsimp only
    rw [getU8_of_le _ (by simp; omega), andThen_ok]
    dsimp only
    cases htf : PacketKind.tryFrom (beVal ((bs.drop 8).take 1)) with
    | error e =>
        rw [andThen_error, tryFrom_error_eq _ _ htf]
        exact Or.inr (Or.inr rfl)
    | ok kind =>
        rw [andThen_ok]
        rw [copyToBytes_of_le _ _ (show DeviceID.LENGTH ≤ ((bs.drop 8).drop 1).length by
          simp [DeviceID.LENGTH]; omega), andThen_ok]
        dsimp only
        rw [copyToBytes_of_le _ _ (show DeviceID.LENGTH ≤
            ((((bs.drop 8).drop 1)).drop DeviceID.LENGTH).length by
          simp [DeviceID.LENGTH]; omega), andThen_ok]
        dsimp only
        rw [getU32_of_le _ (by simp [DeviceID.LENGTH]; omega), andThen_ok]
        dsimp only
        cases kind with
        | Data =>
            dsimp only
            rcases data_decode_shape ((((((bs.drop 8).drop 1)).drop
                DeviceID.LENGTH).drop DeviceID.LENGTH).drop 4) with ⟨⟨b, r2⟩, hr⟩ | hr
            · rw [hr, andThen_ok]
              dsimp only
              rw [andThen_ok]
              exact Or.inl ⟨_, rfl⟩
            · rw [hr, andThen_error, andThen_error]
              exact Or.inr (Or.inl rfl)
        | KeyExchange =>
            dsimp only
            rcases kex_decode_shape ((((((bs.drop 8).drop 1)).drop
                DeviceID.LENGTH).drop DeviceID.LENGTH).drop 4) with ⟨⟨b, r2⟩, hr⟩ | hr
            · rw [hr, andThen_ok]
              dsimp only
              rw [andThen_ok]
              exact Or.inl ⟨_, rfl⟩
            · rw [hr, andThen_error, andThen_error]
              exact Or.inr (Or.inl rfl)
        | P2P =>
            dsimp only
            rcases binding_decode_shape ((((((bs.drop 8).drop 1)).drop
                DeviceID.LENGTH).drop DeviceID.LENGTH).drop 4) with ⟨⟨b, r2⟩, hr⟩ | hr
            · rw [hr, andThen_ok]
              dsimp only
              rw [andThen_ok]
              exact Or.inl ⟨_, rfl⟩
            · rw [hr, andThen_error, andThen_error]
              exact Or.inr (Or.inl rfl)

end RingLinkProtocol
